import Mathlib

/-!
Verification of the asynchronous core of a client-side data-synchronization
cache: the retry-with-backoff executor (createRetryer), the listener
registry (Subscribable), the eviction scheduler (Removable.updateGcTime)
and the notification-batching scheduler (createNotifyManager).

Each component is shallowly embedded: the mutable state of the TypeScript
code becomes an explicit state record, each microtask or API call becomes
a step of an executable transition function, and environment reads
(focus, connectivity) become Boolean step parameters.
-/

set_option autoImplicit false

deriving instance DecidableEq for Except

namespace Retry

/-- NetworkMode from types.ts: online, always or offlineFirst. -/
inductive NetworkMode where
  | online
  | always
  | offlineFirst
deriving DecidableEq

/-- CancelOptions: optional revert and silent flags. -/
structure CancelOptions where
  revert : Option Bool := none
  silent : Option Bool := none
deriving DecidableEq

/-- A value passed to promiseReject: either the raw error from the work
function, or a CancelledError carrying the revert and silent flags taken
from the CancelOptions (source class CancelledError). -/
inductive RejectValue (E : Type) where
  | err (e : E)
  | cancelled (revert silent : Option Bool)
deriving DecidableEq

/-- RetryValue: boolean, attempt count, or predicate of failureCount and
error (source type RetryValue). -/
inductive RetryValue (E : Type) where
  | bool (b : Bool)
  | num (n : Nat)
  | fn (f : Nat → E → Bool)

/-- RetryDelayValue: a constant duration or a function of failureCount
and error (source type RetryDelayValue). -/
inductive RetryDelayValue (E : Type) where
  | num (n : Nat)
  | fn (f : Nat → E → Nat)

/-- RetryerConfig: the work function is indexed by how many times it was
invoked so far, and returns either a value or an error (a synchronous
throw and an asynchronous rejection are treated identically by run). -/
structure RetryerConfig (E V : Type) where
  fn : Nat → Except E V
  retry : Option (RetryValue E) := none
  retryDelay : Option (RetryDelayValue E) := none
  networkMode : Option NetworkMode := none
  isServer : Bool := false

/-- defaultRetryDelay from the source: min(1000 * 2 ^ failureCount, 30000). -/
def defaultRetryDelay (failureCount : Nat) : Nat :=
  min (1000 * 2 ^ failureCount) 30000

/-- canFetch from the source: (networkMode ?? online) = online requires
the online signal, any other mode can always start. -/
def canFetch (networkMode : Option NetworkMode) (online : Bool) : Bool :=
  match networkMode.getD .online with
  | .online => online
  | _ => true

/-- shouldPause from the source: not focused, or (networkMode is not
always and not online). -/
def shouldPause (networkMode : Option NetworkMode) (focused online : Bool) : Bool :=
  !focused || (decide (networkMode ≠ some NetworkMode.always) && !online)

/-- The effective retry policy: config.retry ?? (isServer ? 0 : 3). -/
def effRetry {E V : Type} (cfg : RetryerConfig E V) : RetryValue E :=
  cfg.retry.getD (.num (if cfg.isServer then 0 else 3))

/-- shouldRetry from run: retry === true, or failureCount < retry for a
numeric policy, or retry(failureCount, error) for a predicate. -/
def shouldRetryFn {E : Type} (retry : RetryValue E) (failureCount : Nat) (e : E) : Bool :=
  match retry with
  | .bool b => b
  | .num n => decide (failureCount < n)
  | .fn f => f failureCount e

/-- The delay computed in run: config.retryDelay ?? defaultRetryDelay,
applied to (failureCount, error) when it is a function. -/
def computeDelay {E V : Type} (cfg : RetryerConfig E V) (failureCount : Nat) (e : E) : Nat :=
  match cfg.retryDelay with
  | none => defaultRetryDelay failureCount
  | some (.num n) => n
  | some (.fn f) => f failureCount e

/-- Where the executor's single chain of microtasks currently stands. -/
inductive Control (E V : Type) where
  /-- suspended on the initial pause gate (createRetryer tail: pause().then(run)). -/
  | pausedInit
  /-- the initial gate resolved; the pause cleanup microtask is pending, run follows. -/
  | releasingInit
  /-- an attempt is in flight; its outcome is already determined by config.fn. -/
  | attemptPending (r : Except E V)
  /-- sleeping out the retry delay, carrying the triggering error. -/
  | sleeping (e : E)
  /-- suspended on the pause gate inside the retry path. -/
  | pausedRetry (e : E)
  /-- the retry-path gate resolved, cleanup microtask pending. -/
  | releasingRetry (e : E)
  /-- the final microtask of the retry chain: check isRetryCancelled, then run. -/
  | readyCheck (e : E)
  /-- run is the next microtask (initial path, no isRetryCancelled check). -/
  | readyRun
  /-- no executor continuation is pending. -/
  | idle
deriving DecidableEq

/-- The mutable state of one createRetryer invocation, together with
counters recording how often each lifecycle callback fired.  failEvents
logs, newest first, the pair (delay handed to sleep, argument handed to
onFail) of each retried failure.  result models the settlement of the
returned promise. -/
structure RS (E V : Type) where
  control : Control E V
  isRetryCancelled : Bool := false
  failureCount : Nat := 0
  isResolved : Bool := false
  continueFnActive : Bool := false
  fnCalls : Nat := 0
  onSuccessCount : Nat := 0
  onErrorCount : Nat := 0
  failEvents : List (Nat × Nat) := []
  onPauseCount : Nat := 0
  onContinueCount : Nat := 0
  abortCount : Nat := 0
  result : Option (Except (RejectValue E) V) := none
deriving DecidableEq

/-- Calling continueFn resolves the inner gate promise, moving a paused
control point to its releasing stage. -/
def releaseGate {E V : Type} : Control E V → Control E V
  | .pausedInit => .releasingInit
  | .pausedRetry e => .releasingRetry e
  | c => c

/-- resolve from the source: guarded by isResolved; sets the flag, fires
onSuccess, calls continueFn (which releases the gate since isResolved is
already true) and settles the promise. -/
def resolveFn {E V : Type} (v : V) (s : RS E V) : RS E V :=
  if s.isResolved then s
  else
    { s with
      isResolved := true
      onSuccessCount := s.onSuccessCount + 1
      control := if s.continueFnActive then releaseGate s.control else s.control
      result := some (.ok v) }

/-- reject from the source: guarded by isResolved; sets the flag, fires
onError, calls continueFn and settles the promise with the given value. -/
def rejectFn {E V : Type} (rv : RejectValue E) (s : RS E V) : RS E V :=
  if s.isResolved then s
  else
    { s with
      isResolved := true
      onErrorCount := s.onErrorCount + 1
      control := if s.continueFnActive then releaseGate s.control else s.control
      result := some (.error rv) }

/-- run from the source: do nothing if already resolved, otherwise invoke
the work function and leave its outcome in flight. -/
def runStep {E V : Type} (cfg : RetryerConfig E V) (s : RS E V) : RS E V :=
  if s.isResolved then { s with control := .idle }
  else
    { s with
      control := .attemptPending (cfg.fn s.fnCalls)
      fnCalls := s.fnCalls + 1 }

/-- The in-flight attempt settles: on success the .then(resolve)
continuation runs; on failure the catch continuation runs — early return
when resolved, otherwise compute delay and shouldRetry, reject
terminally, or increment failureCount, fire onFail and start sleeping. -/
def settleStep {E V : Type} (cfg : RetryerConfig E V) (s : RS E V) : RS E V :=
  match s.control with
  | .attemptPending (.ok v) => { resolveFn v s with control := .idle }
  | .attemptPending (.error e) =>
      if s.isResolved then { s with control := .idle }
      else
        let delay := computeDelay cfg s.failureCount e
        let sr := shouldRetryFn (effRetry cfg) s.failureCount e
        if s.isRetryCancelled || !sr then { rejectFn (.err e) s with control := .idle }
        else
          { s with
            failureCount := s.failureCount + 1
            failEvents := (delay, s.failureCount + 1) :: s.failEvents
            control := .sleeping e }
  | _ => s

/-- The sleep timer fires: if shouldPause holds at that moment, pause()
runs (setting continueFn and firing onPause, with no isResolved guard);
otherwise the final check microtask is next. -/
def elapseStep {E V : Type} (cfg : RetryerConfig E V) (focused online : Bool) (s : RS E V) :
    RS E V :=
  match s.control with
  | .sleeping e =>
      if shouldPause cfg.networkMode focused online then
        { s with
          control := .pausedRetry e
          continueFnActive := true
          onPauseCount := s.onPauseCount + 1 }
      else { s with control := .readyCheck e }
  | _ => s

/-- The pause cleanup continuation: clears continueFn and fires
onContinue unless the handle resolved while suspended. -/
def cleanupStep {E V : Type} (s : RS E V) : RS E V :=
  match s.control with
  | .releasingInit =>
      { s with
        continueFnActive := false
        onContinueCount := s.onContinueCount + (if s.isResolved then 0 else 1)
        control := .readyRun }
  | .releasingRetry e =>
      { s with
        continueFnActive := false
        onContinueCount := s.onContinueCount + (if s.isResolved then 0 else 1)
        control := .readyCheck e }
  | _ => s

/-- The microtask after sleep or pause: on the retry path, reject with
the last error when isRetryCancelled, else run; on the initial path run
directly. -/
def proceedStep {E V : Type} (cfg : RetryerConfig E V) (s : RS E V) : RS E V :=
  match s.control with
  | .readyRun => runStep cfg s
  | .readyCheck e =>
      if s.isRetryCancelled then { rejectFn (.err e) s with control := .idle }
      else runStep cfg s
  | _ => s

/-- cancel from the source: when not resolved, reject with a
CancelledError built from the options and invoke the abort hook; after
resolution it is a no-op. -/
def cancelStep {E V : Type} (opts : Option CancelOptions) (s : RS E V) : RS E V :=
  if s.isResolved then s
  else
    { rejectFn (.cancelled (opts.bind CancelOptions.revert) (opts.bind CancelOptions.silent)) s
      with abortCount := s.abortCount + 1 }

/-- Invoking continueFn (if set): canContinue is isResolved or not
shouldPause at this instant; only then is the gate released.  The second
component is the Boolean continueFn returned, none when no gate was
active. -/
def continueFnCall {E V : Type} (cfg : RetryerConfig E V) (focused online : Bool)
    (s : RS E V) : RS E V × Option Bool :=
  if s.continueFnActive then
    let canContinue := s.isResolved || !shouldPause cfg.networkMode focused online
    (if canContinue then { s with control := releaseGate s.control } else s, some canContinue)
  else (s, none)

/-- The continue method of the returned handle: didContinue is truthy
exactly when an active gate reported canContinue; then the handle's own
promise is returned (Bool true), otherwise a fresh resolved promise
(Bool false). -/
def continueAPI {E V : Type} (cfg : RetryerConfig E V) (focused online : Bool)
    (s : RS E V) : RS E V × Bool :=
  let r := continueFnCall cfg focused online s
  (r.1, r.2.getD false)

/-- One interleaving step: a pending microtask or timer runs, or one of
the handle's methods is called.  Environment reads carry the focus and
online signals current at that instant. -/
inductive Ev where
  | settle
  | elapse (focused online : Bool)
  | cleanup
  | proceed
  | cancel (opts : Option CancelOptions)
  | cancelRetry
  | continueRetry
  | contin (focused online : Bool)
deriving DecidableEq

/-- The transition function of the executor.  Events that do not match
the current control point are no-ops. -/
def step {E V : Type} (cfg : RetryerConfig E V) (s : RS E V) : Ev → RS E V
  | .settle => settleStep cfg s
  | .elapse f o => elapseStep cfg f o s
  | .cleanup => cleanupStep s
  | .proceed => proceedStep cfg s
  | .cancel opts => cancelStep opts s
  | .cancelRetry => { s with isRetryCancelled := true }
  | .continueRetry => { s with isRetryCancelled := false }
  | .contin f o => (continueFnCall cfg f o s).1

/-- The tail of createRetryer: if canFetch allows starting, run
immediately; otherwise enter the initial pause (setting continueFn and
firing onPause). -/
def init {E V : Type} (cfg : RetryerConfig E V) (online : Bool) : RS E V :=
  let base : RS E V := { control := .idle }
  if canFetch cfg.networkMode online then runStep cfg base
  else
    { base with
      control := .pausedInit
      continueFnActive := true
      onPauseCount := 1 }

/-- Run a list of events from a given state. -/
def runEvs {E V : Type} (cfg : RetryerConfig E V) (s : RS E V) (evs : List Ev) : RS E V :=
  evs.foldl (step cfg) s

/-- Run a list of events from the initial state of createRetryer. -/
def steps {E V : Type} (cfg : RetryerConfig E V) (online : Bool) (evs : List Ev) : RS E V :=
  runEvs cfg (init cfg online) evs

/-- The observables that must be frozen once the handle has resolved:
work-function invocations, failureCount, the two terminal callbacks, the
retried-failure log, the abort counter and the promise settlement. -/
def frozenObs {E V : Type} (s : RS E V) :
    Nat × Nat × Nat × Nat × List (Nat × Nat) × Nat × Option (Except (RejectValue E) V) :=
  (s.fnCalls, s.failureCount, s.onSuccessCount, s.onErrorCount, s.failEvents, s.abortCount,
    s.result)

/-- The terminal-callback bookkeeping: the two counters sum to one
exactly when the handle has resolved. -/
def TerminalInv {E V : Type} (s : RS E V) : Prop :=
  s.onSuccessCount + s.onErrorCount = if s.isResolved then 1 else 0

/-- The abort hook fires at most once: it is invoked only by an
effective cancel, which also resolves the handle. -/
def AbortInv {E V : Type} (s : RS E V) : Prop :=
  (s.isResolved = false → s.abortCount = 0) ∧ s.abortCount ≤ 1

/-- Under the default delay policy, the log of retried failures is
exactly: the k-th retried failure (1-based) slept defaultRetryDelay of
(k - 1) — the failureCount before its increment — and handed k — the
incremented count — to onFail. -/
def FailInv {E V : Type} (cfg : RetryerConfig E V) (s : RS E V) : Prop :=
  s.failEvents = (List.range s.failureCount).reverse.map (fun i => (defaultRetryDelay i, i + 1))

/-- A concrete configuration whose work function always fails, with two
permitted retries: used to exhibit executor interleavings. -/
def cfgC1 : RetryerConfig Nat Nat :=
  { fn := fun _ => .error 0, retry := some (.num 2) }

/-- The configuration of the first scenario of the retry-count claim:
numeric policy 2, constant zero delay, work failing on its first three
invocations. -/
def cfg2A : RetryerConfig Nat Nat :=
  { fn := fun i => if i < 3 then .error (i + 1) else .ok 42
    retry := some (.num 2)
    retryDelay := some (.num 0) }

/-- The same work function with retry policy false. -/
def cfg2B : RetryerConfig Nat Nat :=
  { fn := fun i => if i < 3 then .error (i + 1) else .ok 42
    retry := some (.bool false)
    retryDelay := some (.num 0) }

/-- The deterministic schedule of the first scenario: three attempts,
each delay elapsing focused and online. -/
def evs2A : List Ev :=
  [.settle, .elapse true true, .proceed, .settle, .elapse true true, .proceed, .settle]

/-- A configuration for pause-gate scenarios: always-failing work,
default policies. -/
def cfg9 : RetryerConfig Nat Nat :=
  { fn := fun _ => .error 0 }

/-- A default-delay configuration with five permitted retries. -/
def cfg10 : RetryerConfig Nat Nat :=
  { fn := fun _ => .error 7, retry := some (.num 5) }

end Retry

namespace Subs

/-- The observable state of one Subscribable instance: the JS Set of
listeners (identity keyed, insertion ordered, never holding duplicates)
plus counters of the two hook invocations. -/
structure SubState where
  listeners : List Nat
  onSubscribeCount : Nat
  onUnsubscribeCount : Nat
deriving DecidableEq

/-- subscribe from the source: listeners.add(listener) — a Set add is a
no-op when the listener is already present — followed unconditionally by
this.onSubscribe(). -/
def subscribe (s : SubState) (l : Nat) : SubState :=
  { s with
    listeners := if l ∈ s.listeners then s.listeners else s.listeners ++ [l]
    onSubscribeCount := s.onSubscribeCount + 1 }

/-- The closure returned by subscribe: listeners.delete(listener)
followed unconditionally by this.onUnsubscribe(), on every invocation. -/
def unsubscribe (s : SubState) (l : Nat) : SubState :=
  { s with
    listeners := s.listeners.erase l
    onUnsubscribeCount := s.onUnsubscribeCount + 1 }

/-- hasListeners from the source: listeners.size is greater than 0. -/
def hasListeners (s : SubState) : Bool :=
  decide (0 < s.listeners.length)

/-- A fresh Subscribable: empty listener set, no hook invocations. -/
def fresh : SubState :=
  { listeners := [], onSubscribeCount := 0, onUnsubscribeCount := 0 }

end Subs

namespace GC

/-- A JavaScript duration: a finite number of milliseconds or Infinity. -/
inductive JsNum where
  | fin (n : Int)
  | inf
deriving DecidableEq

/-- Math.max on durations. -/
def jmax : JsNum → JsNum → JsNum
  | .inf, _ => .inf
  | .fin _, .inf => .inf
  | .fin a, .fin b => .fin (max a b)

/-- Order on durations, with Infinity on top. -/
def jle : JsNum → JsNum → Bool
  | _, .inf => true
  | .inf, .fin _ => false
  | .fin a, .fin b => decide (a ≤ b)

/-- this.gcTime || 0: an unset gcTime reads as 0 (and 0 itself also
yields 0). -/
def orZero : Option JsNum → JsNum
  | none => .fin 0
  | some v => v

/-- updateGcTime from Removable: gcTime becomes the max of (gcTime || 0)
and (newGcTime ?? (isServer ? Infinity : 5 * 60 * 1000)). -/
def updateGcTime (server : Bool) (gcTime : Option JsNum) (newGcTime : Option JsNum) : JsNum :=
  jmax (orZero gcTime) (newGcTime.getD (if server then .inf else .fin (5 * 60 * 1000)))

/-- Applying updateGcTime over a sequence of requested values. -/
def updateSeq (server : Bool) (gcTime : Option JsNum) (reqs : List (Option JsNum)) :
    Option JsNum :=
  reqs.foldl (fun g r => some (updateGcTime server g r)) gcTime

end GC

namespace Notify

/-- The state of createNotifyManager under its default configuration:
the pending queue, the transactions depth, the log of callbacks handed
to the dispatch primitive in delivery order, and the number of dispatched
flush passes.  Callbacks are opaque identifiers. -/
structure NotifyState where
  queue : List Nat
  transactions : Nat
  delivered : List Nat
  flushPasses : Nat
deriving DecidableEq

/-- schedule from the source: inside a batch (transactions nonzero) the
callback joins the queue; otherwise it is dispatched on its own. -/
def schedule (cb : Nat) (s : NotifyState) : NotifyState :=
  if s.transactions ≠ 0 then { s with queue := s.queue ++ [cb] }
  else { s with delivered := s.delivered ++ [cb] }

/-- flush from the source: swap the queue for an empty one; if the
swapped-out queue is non-empty, dispatch it as one pass, delivering its
callbacks in insertion order. -/
def flush (s : NotifyState) : NotifyState :=
  let originalQueue := s.queue
  let s1 := { s with queue := ([] : List Nat) }
  if originalQueue.length ≠ 0 then
    { s1 with
      delivered := s1.delivered ++ originalQueue
      flushPasses := s1.flushPasses + 1 }
  else s1

/-- A client program of the scheduler: schedule a callback, run a nested
batch, or throw. -/
inductive Act where
  | sched (cb : Nat)
  | batchA (body : List Act)
  | throwA

mutual

/-- batch from the source, applied to a program: increment transactions,
run the body (which stops at a throw), then — in the finally block, so
also on a throw — decrement transactions and flush when the depth
returns to zero; the Bool result records the propagating exception. -/
def runAct : Act → NotifyState → NotifyState × Bool
  | .sched cb, s => (schedule cb s, false)
  | .batchA body, s =>
      let s1 : NotifyState := { s with transactions := s.transactions + 1 }
      let r := runActs body s1
      let s3 : NotifyState := { r.1 with transactions := r.1.transactions - 1 }
      (if s3.transactions = 0 then flush s3 else s3, r.2)
  | .throwA, s => (s, true)

/-- Run a sequence of actions, stopping at the first throw. -/
def runActs : List Act → NotifyState → NotifyState × Bool
  | [], s => (s, false)
  | a :: rest, s =>
      let r := runAct a s
      if r.2 then (r.1, true) else runActs rest r.1

end

mutual

/-- Specification: the callbacks an action schedules, in execution
order, and whether it throws. -/
def schedsOf : Act → List Nat × Bool
  | .sched cb => ([cb], false)
  | .batchA body => schedsOfList body
  | .throwA => ([], true)

/-- Specification for sequences: concatenate until the first throw. -/
def schedsOfList : List Act → List Nat × Bool
  | [] => ([], false)
  | a :: rest =>
      let r := schedsOf a
      if r.2 then (r.1, true)
      else (r.1 ++ (schedsOfList rest).1, (schedsOfList rest).2)

end

/-- A quiescent scheduler state. -/
def quiescent : NotifyState :=
  { queue := [], transactions := 0, delivered := [], flushPasses := 0 }

end Notify

namespace Retry

theorem step_resolved_mono {E V : Type} (cfg : RetryerConfig E V) (s : RS E V) (ev : Ev)
    (h : s.isResolved = true) : (step cfg s ev).isResolved = true := by
  cases ev
  case settle =>
    simp only [step, settleStep]
    cases hc : s.control with
    | attemptPending r => cases r <;> simp [resolveFn, rejectFn, h]
    | _ => simp [h]
  case elapse f o =>
    simp only [step, elapseStep]
    cases hc : s.control <;> simp [h] <;> split <;> simp [h]
  case cleanup =>
    simp only [step, cleanupStep]
    cases hc : s.control <;> simp [h]
  case proceed =>
    simp only [step, proceedStep]
    cases hc : s.control <;> simp [h, runStep, rejectFn]
  case cancel opts =>
    simp [step, cancelStep, rejectFn, h]
  case cancelRetry => simp [step, h]
  case continueRetry => simp [step, h]
  case contin f o =>
    simp only [step, continueFnCall]
    split <;> simp [h]

theorem step_resolved_frozen {E V : Type} (cfg : RetryerConfig E V) (s : RS E V) (ev : Ev)
    (h : s.isResolved = true) : frozenObs (step cfg s ev) = frozenObs s := by
  cases ev
  case settle =>
    simp only [step, settleStep]
    cases hc : s.control with
    | attemptPending r => cases r <;> simp [resolveFn, rejectFn, h, frozenObs]
    | _ => simp [h, frozenObs]
  case elapse f o =>
    simp only [step, elapseStep]
    cases hc : s.control <;> simp [h, frozenObs] <;> split <;> simp [h, frozenObs]
  case cleanup =>
    simp only [step, cleanupStep]
    cases hc : s.control <;> simp [h, frozenObs]
  case proceed =>
    simp only [step, proceedStep]
    cases hc : s.control <;> simp [h, frozenObs, runStep, rejectFn]
  case cancel opts =>
    simp [step, cancelStep, rejectFn, h, frozenObs]
  case cancelRetry => simp [step, h, frozenObs]
  case continueRetry => simp [step, h, frozenObs]
  case contin f o =>
    simp only [step, continueFnCall]
    split <;> simp [h, frozenObs]

theorem resolveFn_terminal {E V : Type} (v : V) (s : RS E V) (h : TerminalInv s) :
    TerminalInv (resolveFn v s) := by
  unfold TerminalInv resolveFn at *
  split <;> simp_all

theorem rejectFn_terminal {E V : Type} (rv : RejectValue E) (s : RS E V) (h : TerminalInv s) :
    TerminalInv (rejectFn rv s) := by
  unfold TerminalInv rejectFn at *
  split <;> simp_all

theorem step_terminal {E V : Type} (cfg : RetryerConfig E V) (s : RS E V) (ev : Ev)
    (h : TerminalInv s) : TerminalInv (step cfg s ev) := by
  unfold TerminalInv at *
  cases ev <;>
    simp only [step, settleStep, elapseStep, cleanupStep, proceedStep, cancelStep,
      continueFnCall, runStep, resolveFn, rejectFn] <;>
    (try cases hc : s.control) <;>
    (repeat' split) <;>
    simp_all

/-- A step-preserved predicate is preserved along any event list. -/
theorem runEvs_pres {E V : Type} (cfg : RetryerConfig E V) (P : RS E V → Prop)
    (hstep : ∀ s ev, P s → P (step cfg s ev)) :
    ∀ (evs : List Ev) (s : RS E V), P s → P (runEvs cfg s evs)
  | [], _, h => h
  | ev :: evs, s, h => by
      have h2 := runEvs_pres cfg P hstep evs (step cfg s ev) (hstep s ev h)
      simpa [runEvs, List.foldl_cons] using h2

theorem init_terminal {E V : Type} (cfg : RetryerConfig E V) (online : Bool) :
    TerminalInv (init cfg online) := by
  unfold init
  split
  · simp [runStep, TerminalInv]
  · simp [TerminalInv]

theorem steps_terminal {E V : Type} (cfg : RetryerConfig E V) (online : Bool) (evs : List Ev) :
    TerminalInv (steps cfg online evs) :=
  runEvs_pres cfg TerminalInv (fun s ev h => step_terminal cfg s ev h) evs _
    (init_terminal cfg online)

/-- Resolution is permanent and freezes the terminal observables along
any continuation of the run. -/
theorem runEvs_resolved_frozen {E V : Type} (cfg : RetryerConfig E V) :
    ∀ (evs : List Ev) (s : RS E V), s.isResolved = true →
      (runEvs cfg s evs).isResolved = true ∧ frozenObs (runEvs cfg s evs) = frozenObs s
  | [], _, h => ⟨h, rfl⟩
  | ev :: evs, s, h => by
      have h1 := step_resolved_mono cfg s ev h
      have h2 := step_resolved_frozen cfg s ev h
      have h3 := runEvs_resolved_frozen cfg evs (step cfg s ev) h1
      refine ⟨?_, ?_⟩
      · simpa [runEvs, List.foldl_cons] using h3.1
      · have := h3.2.trans h2
        simpa [runEvs, List.foldl_cons] using this

theorem step_abort {E V : Type} (cfg : RetryerConfig E V) (s : RS E V) (ev : Ev)
    (h : AbortInv s) : AbortInv (step cfg s ev) := by
  unfold AbortInv at *
  cases ev <;>
    simp only [step, settleStep, elapseStep, cleanupStep, proceedStep, cancelStep,
      continueFnCall, runStep, resolveFn, rejectFn] <;>
    (try cases hc : s.control) <;>
    (repeat' split) <;>
    simp_all

theorem init_abort {E V : Type} (cfg : RetryerConfig E V) (online : Bool) :
    AbortInv (init cfg online) := by
  unfold init AbortInv
  split <;> simp [runStep]

theorem steps_abort {E V : Type} (cfg : RetryerConfig E V) (online : Bool) (evs : List Ev) :
    AbortInv (steps cfg online evs) :=
  runEvs_pres cfg AbortInv (fun s ev h => step_abort cfg s ev h) evs _ (init_abort cfg online)

theorem step_fail {E V : Type} (cfg : RetryerConfig E V) (hd : cfg.retryDelay = none)
    (s : RS E V) (ev : Ev) (h : FailInv cfg s) : FailInv cfg (step cfg s ev) := by
  unfold FailInv at *
  cases ev <;>
    simp only [step, settleStep, elapseStep, cleanupStep, proceedStep, cancelStep,
      continueFnCall, runStep, resolveFn, rejectFn, computeDelay, hd] <;>
    (try cases hc : s.control) <;>
    (repeat' split) <;>
    simp_all [List.range_succ]

theorem init_fail {E V : Type} (cfg : RetryerConfig E V) (online : Bool) :
    FailInv cfg (init cfg online) := by
  unfold init FailInv
  split <;> simp [runStep]

theorem steps_fail {E V : Type} (cfg : RetryerConfig E V) (hd : cfg.retryDelay = none)
    (online : Bool) (evs : List Ev) : FailInv cfg (steps cfg online evs) :=
  runEvs_pres cfg (FailInv cfg) (fun s ev h => step_fail cfg hd s ev h) evs _
    (init_fail cfg online)

/-- Claim C1 counterexample: the claim that after the resolved flag is
set no pause may suspend is false.  Concretely: the first attempt fails
and a retry is scheduled; cancel resolves the handle (onError fires)
while the retry delay is elapsing; when the delay then elapses with the
document unfocused, pause() still runs — onPause fires and the loop
suspends on the gate — even though the handle is already resolved. -/
theorem claim1_counterexample :
    (steps cfgC1 true [Ev.settle, Ev.cancel none]).isResolved = true
    ∧ (steps cfgC1 true [Ev.settle, Ev.cancel none]).onPauseCount = 0
    ∧ (step cfgC1 (steps cfgC1 true [Ev.settle, Ev.cancel none]) (Ev.elapse false true)).onPauseCount
        = 1
    ∧ (step cfgC1 (steps cfgC1 true [Ev.settle, Ev.cancel none]) (Ev.elapse false true)).control
        = Control.pausedRetry 0 := by
  decide

/-- Claim C1 (amended): over all interleavings of attempts, retries,
pauses and cancellation, at most one of onSuccess and onError fires, it
fires exactly once exactly when the resolved flag is set, and after the
resolved flag is set no further attempt starts and failureCount is never
mutated again.  (The pause part of the original claim is dropped: a
pause gate can still be entered after resolution, see the
counterexample.) -/
theorem claim1_amended {E V : Type} (cfg : RetryerConfig E V) (online : Bool) (evs : List Ev) :
    (steps cfg online evs).onSuccessCount + (steps cfg online evs).onErrorCount ≤ 1
    ∧ ((steps cfg online evs).isResolved = true ↔
        (steps cfg online evs).onSuccessCount + (steps cfg online evs).onErrorCount = 1)
    ∧ (∀ ev : Ev, (steps cfg online evs).isResolved = true →
        (step cfg (steps cfg online evs) ev).fnCalls = (steps cfg online evs).fnCalls
        ∧ (step cfg (steps cfg online evs) ev).failureCount
            = (steps cfg online evs).failureCount) := by
  have ht := steps_terminal cfg online evs
  unfold TerminalInv at ht
  refine ⟨?_, ?_, ?_⟩
  · split at ht <;> omega
  · constructor
    · intro h
      rw [h] at ht
      simpa using ht
    · intro h
      by_contra hr
      rw [if_neg ?_] at ht
      · omega
      · simpa using hr
  · intro ev h
    have hf := step_resolved_frozen cfg (steps cfg online evs) ev h
    exact ⟨congrArg (fun t => t.1) hf, congrArg (fun t => t.2.1) hf⟩

/-- Claim C1 witness: a resolved concrete state on which a further step
leaves fnCalls unchanged. -/
theorem claim1_witness :
    (step cfgC1 (steps cfgC1 true [Ev.settle, Ev.cancel none]) Ev.proceed).fnCalls
      = (steps cfgC1 true [Ev.settle, Ev.cancel none]).fnCalls :=
  ((claim1_amended cfgC1 true [Ev.settle, Ev.cancel none]).2.2 Ev.proceed (by decide)).1

/-- Claim C2: with numeric retry policy 2 and constant zero delay, work
failing on its first three invocations resolves as a terminal failure
carrying the third error after exactly three invocations (two retries),
and no continuation of the run ever invokes the work function a fourth
time; with retry policy false the handle resolves as a terminal failure
after exactly one invocation, never a second. -/
theorem claim2_retry_counts :
    (steps cfg2A true evs2A).fnCalls = 3
    ∧ (steps cfg2A true evs2A).onErrorCount = 1
    ∧ (steps cfg2A true evs2A).result = some (Except.error (RejectValue.err 3))
    ∧ (∀ evs : List Ev, (runEvs cfg2A (steps cfg2A true evs2A) evs).fnCalls = 3)
    ∧ (steps cfg2B true [Ev.settle]).fnCalls = 1
    ∧ (steps cfg2B true [Ev.settle]).onErrorCount = 1
    ∧ (steps cfg2B true [Ev.settle]).result = some (Except.error (RejectValue.err 1))
    ∧ (∀ evs : List Ev, (runEvs cfg2B (steps cfg2B true [Ev.settle]) evs).fnCalls = 1) := by
  refine ⟨by decide, by decide, by decide, ?_, by decide, by decide, by decide, ?_⟩
  · intro evs
    have h := runEvs_resolved_frozen cfg2A evs (steps cfg2A true evs2A) (by decide)
    have h2 : (runEvs cfg2A (steps cfg2A true evs2A) evs).fnCalls
        = (steps cfg2A true evs2A).fnCalls := congrArg (fun t => t.1) h.2
    rw [h2]
    decide
  · intro evs
    have h := runEvs_resolved_frozen cfg2B evs (steps cfg2B true [Ev.settle]) (by decide)
    have h2 : (runEvs cfg2B (steps cfg2B true [Ev.settle]) evs).fnCalls
        = (steps cfg2B true [Ev.settle]).fnCalls := congrArg (fun t => t.1) h.2
    rw [h2]
    decide

/-- Claim C8: cancel before terminal resolution immediately resolves the
handle as a cancellation error carrying the revert and silent flags of
the options and invokes the abort hook; it releases any active pause
gate without consulting the connectivity or focus signals (the cancel
event takes no environment input); cancel after resolution changes
nothing; and along every run the abort hook fires at most once. -/
theorem claim8_cancel {E V : Type} (cfg : RetryerConfig E V) (s : RS E V)
    (opts : Option CancelOptions) (online : Bool) (evs : List Ev) :
    (s.isResolved = false →
      (step cfg s (Ev.cancel opts)).isResolved = true
      ∧ (step cfg s (Ev.cancel opts)).onErrorCount = s.onErrorCount + 1
      ∧ (step cfg s (Ev.cancel opts)).abortCount = s.abortCount + 1
      ∧ (step cfg s (Ev.cancel opts)).result
          = some (Except.error (RejectValue.cancelled (opts.bind CancelOptions.revert)
              (opts.bind CancelOptions.silent)))
      ∧ (s.continueFnActive = true →
          (step cfg s (Ev.cancel opts)).control = releaseGate s.control))
    ∧ (s.isResolved = true → step cfg s (Ev.cancel opts) = s)
    ∧ (steps cfg online evs).abortCount ≤ 1 := by
  refine ⟨?_, ?_, (steps_abort cfg online evs).2⟩
  · intro h
    refine ⟨by simp [step, cancelStep, rejectFn, h], by simp [step, cancelStep, rejectFn, h],
      by simp [step, cancelStep, rejectFn, h], by simp [step, cancelStep, rejectFn, h], ?_⟩
    intro hc
    simp [step, cancelStep, rejectFn, h, hc]
  · intro h
    simp [step, cancelStep, h]

/-- Claim C8 witness: cancelling the concrete handle that is suspended
on the initial pause gate resolves it, fires abort and releases the
gate. -/
theorem claim8_witness :
    (step cfg9 (init cfg9 false) (Ev.cancel (some { revert := some true }))).abortCount
      = (init cfg9 false).abortCount + 1
    ∧ (step cfg9 (init cfg9 false) (Ev.cancel (some { revert := some true }))).control
        = releaseGate (init cfg9 false).control := by
  have h := (claim8_cancel cfg9 (init cfg9 false) (some { revert := some true }) false []).1
    (by decide)
  exact ⟨h.2.2.1, h.2.2.2.2 (by decide)⟩

/-- Claim C9 counterexample: the handle was created offline, so the
executor is suspended on the initial pause gate; continue() invoked
while the environment still pauses (unfocused or offline) does not
release the gate — the state is unchanged and the call reports an
immediately resolved promise — contradicting that continue forces an
immediate release regardless of the connectivity and focus signals. -/
theorem claim9_counterexample :
    (init cfg9 false).continueFnActive = true
    ∧ (init cfg9 false).control = Control.pausedInit
    ∧ (continueAPI cfg9 false false (init cfg9 false)).1 = init cfg9 false
    ∧ (continueAPI cfg9 false false (init cfg9 false)).2 = false := by
  decide

/-- Claim C9 (amended): continue() releases an active pause gate exactly
when resumption is permitted at that instant — the handle has resolved
or shouldPause is false — and then returns the handle promise; if the
gate is active but shouldPause still holds (and the handle is
unresolved) the gate stays suspended and an immediately resolved promise
is returned; with no active gate the state is unchanged and an
immediately resolved promise is returned. -/
theorem claim9_amended {E V : Type} (cfg : RetryerConfig E V) (focused online : Bool)
    (s : RS E V) :
    (s.continueFnActive = false → continueAPI cfg focused online s = (s, false))
    ∧ (s.continueFnActive = true →
        (s.isResolved = true ∨ shouldPause cfg.networkMode focused online = false) →
        continueAPI cfg focused online s = ({ s with control := releaseGate s.control }, true))
    ∧ (s.continueFnActive = true → s.isResolved = false →
        shouldPause cfg.networkMode focused online = true →
        continueAPI cfg focused online s = (s, false)) := by
  refine ⟨?_, ?_, ?_⟩
  · intro h
    simp [continueAPI, continueFnCall, h]
  · intro h hc
    rcases hc with hc | hc <;> simp [continueAPI, continueFnCall, h, hc]
  · intro h h1 h2
    simp [continueAPI, continueFnCall, h, h1, h2]

/-- Claim C9 witness: once the environment is focused and online again,
continue() on the concrete suspended handle releases the gate and
returns the handle promise. -/
theorem claim9_witness :
    continueAPI cfg9 true true (init cfg9 false)
      = ({ init cfg9 false with control := releaseGate (init cfg9 false).control }, true) :=
  (claim9_amended cfg9 true true (init cfg9 false)).2.1 (by decide) (Or.inr (by decide))

/-- Claim C10: under the default backoff policy the log of retried
failures of any run shows that the k-th retried failure slept
defaultRetryDelay (k - 1) — computed from failureCount before its
increment, hence 1000 ms before the first retry — while onFail received
the already incremented count k, which is at least 1; and stepwise, a
retried failure always records the delay at the pre-increment count
together with the post-increment onFail argument. -/
theorem claim10_fail_log {E V : Type} (cfg : RetryerConfig E V) (hd : cfg.retryDelay = none)
    (online : Bool) (evs : List Ev) :
    (steps cfg online evs).failEvents
      = (List.range (steps cfg online evs).failureCount).reverse.map
          (fun i => (defaultRetryDelay i, i + 1))
    ∧ (∀ p ∈ (steps cfg online evs).failEvents, 1 ≤ p.2)
    ∧ defaultRetryDelay 0 = 1000
    ∧ (∀ (s : RS E V) (e : E), s.control = Control.attemptPending (Except.error e) →
        s.isResolved = false → s.isRetryCancelled = false →
        shouldRetryFn (effRetry cfg) s.failureCount e = true →
        (step cfg s Ev.settle).failEvents
            = (computeDelay cfg s.failureCount e, s.failureCount + 1) :: s.failEvents
        ∧ (step cfg s Ev.settle).failureCount = s.failureCount + 1) := by
  have hf := steps_fail cfg hd online evs
  unfold FailInv at hf
  refine ⟨hf, ?_, by decide, ?_⟩
  · intro p hp
    rw [hf] at hp
    simp only [List.mem_map, List.mem_reverse, List.mem_range] at hp
    obtain ⟨i, _, rfl⟩ := hp
    omega
  · intro s e hc h1 h2 h3
    simp [step, settleStep, hc, h1, h2, h3]

/-- Claim C10 witness: the concrete always-failing run records delay
1000 with onFail argument 1 at its first retried failure. -/
theorem claim10_witness :
    (steps cfg10 true [Ev.settle]).failEvents
      = (List.range (steps cfg10 true [Ev.settle]).failureCount).reverse.map
          (fun i => (defaultRetryDelay i, i + 1))
    ∧ (step cfg10 (init cfg10 true) Ev.settle).failureCount
        = (init cfg10 true).failureCount + 1 := by
  refine ⟨(claim10_fail_log cfg10 rfl true [Ev.settle]).1, ?_⟩
  exact ((claim10_fail_log cfg10 rfl true []).2.2.2 (init cfg10 true) 7 (by decide) (by decide)
    (by decide) (by decide)).2

end Retry

namespace Subs

theorem nodup_not_mem_erase {a : Nat} : ∀ {l : List Nat}, l.Nodup → a ∉ l.erase a := by
  intro l h
  induction l with
  | nil => simp
  | cons b t ih =>
      by_cases hba : b = a
      · subst hba
        rw [List.erase_cons_head]
        exact h.not_mem
      · rw [List.erase_cons_tail (by simp [hba])]
        intro hmem
        rcases List.mem_cons.mp hmem with h1 | h1
        · exact hba h1.symm
        · exact ih h.of_cons h1

theorem subscribe_nodup (s : SubState) (l : Nat) (h : s.listeners.Nodup) :
    (subscribe s l).listeners.Nodup := by
  unfold subscribe
  split
  · simpa using h
  · simp only []
    rw [List.nodup_append]
    refine ⟨h, List.nodup_singleton l, ?_⟩
    simp_all

/-- Claim C4 counterexample: subscribe immediately followed by its own
unsubscribe does leave the listener set empty, but invoking the returned
handle twice fires onUnsubscribe twice, not exactly once — the handle
does not guard repeated invocations. -/
theorem claim4_counterexample :
    (unsubscribe (unsubscribe (subscribe fresh 0) 0) 0).listeners = []
    ∧ (unsubscribe (unsubscribe (subscribe fresh 0) 0) 0).onUnsubscribeCount = 2
    ∧ ¬ (unsubscribe (unsubscribe (subscribe fresh 0) 0) 0).onUnsubscribeCount = 1 := by
  decide

/-- Claim C4 (amended): the handle's effect on the listener set is
idempotent — a second invocation leaves the set exactly as the first
left it, and subscribe followed by its own unsubscribe empties a fresh
registry — but the onUnsubscribe hook fires on every invocation of the
handle, so invoking it twice fires the hook twice. -/
theorem claim4_amended (s : SubState) (l : Nat) (h : s.listeners.Nodup) :
    (unsubscribe (unsubscribe (subscribe s l) l) l).listeners
      = (unsubscribe (subscribe s l) l).listeners
    ∧ (s.listeners = [] → (unsubscribe (subscribe s l) l).listeners = [])
    ∧ (∀ t : SubState, (unsubscribe t l).onUnsubscribeCount = t.onUnsubscribeCount + 1) := by
  refine ⟨?_, ?_, fun t => rfl⟩
  · show ((subscribe s l).listeners.erase l).erase l = (subscribe s l).listeners.erase l
    apply List.erase_of_not_mem
    exact nodup_not_mem_erase (subscribe_nodup s l h)
  · intro hs
    show ((subscribe s l).listeners).erase l = []
    unfold subscribe
    simp [hs]

/-- Claim C4 witness: instantiating the amended claim on a one-listener
registry. -/
theorem claim4_witness :
    (unsubscribe (unsubscribe (subscribe
        { listeners := [5], onSubscribeCount := 0, onUnsubscribeCount := 0 } 5) 5) 5).listeners
      = (unsubscribe (subscribe
        { listeners := [5], onSubscribeCount := 0, onUnsubscribeCount := 0 } 5) 5).listeners :=
  (claim4_amended { listeners := [5], onSubscribeCount := 0, onUnsubscribeCount := 0 } 5
    (by decide)).1

/-- Claim C5 counterexample: subscribing the same listener twice leaves
the set unchanged (a singleton), yet onSubscribe has fired twice — the
hook fires on every subscribe call, not only on the transition from zero
to one listener. -/
theorem claim5_counterexample :
    (subscribe (subscribe fresh 0) 0).listeners = [0]
    ∧ (subscribe (subscribe fresh 0) 0).onSubscribeCount = 2
    ∧ ¬ (subscribe (subscribe fresh 0) 0).onSubscribeCount = 1 := by
  decide

/-- Claim C5 (amended): subscribing a listener already present leaves
the listener set (and hence hasListeners) unchanged, but the hooks are
unconditional: every subscribe call fires onSubscribe and every handle
invocation fires onUnsubscribe, regardless of whether the call changed
whether listeners exist. -/
theorem claim5_amended (s : SubState) (l : Nat) (h : l ∈ s.listeners) :
    (subscribe s l).listeners = s.listeners
    ∧ hasListeners (subscribe s l) = hasListeners s
    ∧ (∀ (t : SubState) (m : Nat),
        (subscribe t m).onSubscribeCount = t.onSubscribeCount + 1
        ∧ (unsubscribe t m).onUnsubscribeCount = t.onUnsubscribeCount + 1) := by
  have h1 : (subscribe s l).listeners = s.listeners := by
    unfold subscribe
    simp [h]
  refine ⟨h1, ?_, fun t m => ⟨rfl, rfl⟩⟩
  unfold hasListeners
  rw [h1]

/-- Claim C5 witness: instantiating the amended claim on a registry
already holding the listener. -/
theorem claim5_witness :
    (subscribe { listeners := [3], onSubscribeCount := 1, onUnsubscribeCount := 1 } 3).listeners
      = [3] :=
  (claim5_amended { listeners := [3], onSubscribeCount := 1, onUnsubscribeCount := 1 } 3
    (by decide)).1

end Subs

namespace GC

theorem jle_jmax_left (x y : JsNum) : jle x (jmax x y) = true := by
  cases x <;> cases y <;> simp [jmax, jle, le_max_left]

theorem jle_jmax_right (x y : JsNum) : jle y (jmax x y) = true := by
  cases x <;> cases y <;> simp [jmax, jle, le_max_right]

theorem jmax_inf_right (x : JsNum) : jmax x .inf = .inf := by
  cases x <;> simp [jmax]

/-- Claim C3: updateGcTime never decreases the effective TTL (each call
yields at least the current value and at least the effective request),
an omitted request is replaced by Infinity in a server context and by
5 minutes (300000 ms) otherwise, and folding the calls over the
requested values 5, 2, 10 on a fresh client-side entity leaves the
effective TTL at 10. -/
theorem claim3_updateGcTime (server : Bool) (v : JsNum) (r : Option JsNum) (cur : Option JsNum) :
    jle v (updateGcTime server (some v) r) = true
    ∧ jle (orZero cur) (updateGcTime server cur r) = true
    ∧ updateGcTime true cur none = JsNum.inf
    ∧ jle (JsNum.fin (5 * 60 * 1000)) (updateGcTime false cur none) = true
    ∧ updateSeq false none [some (.fin 5), some (.fin 2), some (.fin 10)]
        = some (JsNum.fin 10) := by
  refine ⟨?_, ?_, ?_, ?_, by decide⟩
  · exact jle_jmax_left v _
  · exact jle_jmax_left (orZero cur) _
  · simpa [updateGcTime] using jmax_inf_right (orZero cur)
  · simpa [updateGcTime] using jle_jmax_right (orZero cur) (JsNum.fin (5 * 60 * 1000))

end GC

namespace Notify

mutual

theorem runAct_in_txn : ∀ (a : Act) (s : NotifyState), 1 ≤ s.transactions →
    runAct a s = ({ s with queue := s.queue ++ (schedsOf a).1 }, (schedsOf a).2)
  | .sched cb, s, h => by
      have hne : s.transactions ≠ 0 := by omega
      simp [runAct, schedule, schedsOf, hne]
  | .batchA body, s, h => by
      have hb := runActs_in_txn body { s with transactions := s.transactions + 1 } (by simp)
      have hne : s.transactions ≠ 0 := by omega
      simp only [runAct, hb, schedsOf]
      simp [hne]
  | .throwA, s, h => by
      simp [runAct, schedsOf]

theorem runActs_in_txn : ∀ (body : List Act) (s : NotifyState), 1 ≤ s.transactions →
    runActs body s = ({ s with queue := s.queue ++ (schedsOfList body).1 }, (schedsOfList body).2)
  | [], s, h => by
      simp [runActs, schedsOfList]
  | a :: rest, s, h => by
      have ha := runAct_in_txn a s h
      by_cases ht : (schedsOf a).2
      · simp [runActs, ha, ht, schedsOfList]
      · have hr := runActs_in_txn rest { s with queue := s.queue ++ (schedsOf a).1 } (by simpa)
        simp only [runActs, ha, ht]
        simp only [Bool.false_eq_true, if_false, hr, schedsOfList]
        simp [ht, List.append_assoc]

end

/-- The outermost exit of a batch from a quiescent state: the queue is
swapped back to empty, everything scheduled during the batch — however
deeply nested, and also when the body threw — is delivered in execution
order in at most one dispatched flush pass (exactly one when anything
was scheduled), the depth returns to its pre-batch value, and the thrown
exception propagates. -/
theorem batch_outer (body : List Act) (s : NotifyState) (h0 : s.transactions = 0)
    (hq : s.queue = []) :
    runAct (.batchA body) s
      = ({ s with
            queue := []
            delivered := s.delivered ++ (schedsOfList body).1
            flushPasses :=
              s.flushPasses + (if (schedsOfList body).1.length = 0 then 0 else 1) },
         (schedsOfList body).2) := by
  have hb := runActs_in_txn body { s with transactions := s.transactions + 1 } (by simp)
  simp only [runAct, hb]
  simp only [h0, Nat.add_sub_cancel]
  unfold flush
  by_cases hl : (schedsOfList body).1.length = 0
  · have : (schedsOfList body).1 = [] := List.length_eq_zero.mp hl
    simp [this, hq, h0]
  · simp [hq, hl, h0]

/-- Claim C6: batch runs its body at incremented depth, restores the
depth on exit even when the body throws (the exception propagating to
the caller, recorded in the Bool component), and — from a quiescent
state, that is at the outermost exit — delivers everything the body
scheduled, in order, in a single flush; nested batches inside the body
do not flush early and a throw does not skip the flush. -/
theorem claim6_batch (body : List Act) (s : NotifyState) (h0 : s.transactions = 0)
    (hq : s.queue = []) :
    runAct (.batchA body) s
      = ({ s with
            queue := []
            delivered := s.delivered ++ (schedsOfList body).1
            flushPasses :=
              s.flushPasses + (if (schedsOfList body).1.length = 0 then 0 else 1) },
         (schedsOfList body).2)
    ∧ (runAct (.batchA body) s).1.transactions = s.transactions := by
  have h := batch_outer body s h0 hq
  exact ⟨h, by rw [h]⟩

/-- Claim C6 witness: a batch whose body schedules once inside a nested
batch and then throws still delivers the scheduled callback in one
flush pass, restores depth 0 and propagates the exception. -/
theorem claim6_witness :
    runAct (.batchA [.batchA [.sched 1, .throwA], .sched 2]) quiescent
      = ({ queue := [], transactions := 0, delivered := [1], flushPasses := 1 }, true) := by
  have h := (claim6_batch [.batchA [.sched 1, .throwA], .sched 2] quiescent rfl rfl).1
  rw [h]
  decide

/-- Claim C7: a batch scheduling a and then b delivers a then b, in
insertion order, in exactly one flush pass; and flush itself swaps the
queue for an empty one before delivering — the dispatched pass is
exactly the swapped-out queue, so later entries join the new queue and
an empty swapped-out queue dispatches no pass at all. -/
theorem claim7_batch_order (s : NotifyState) (a b : Nat) (h0 : s.transactions = 0)
    (hq : s.queue = []) :
    runAct (.batchA [.sched a, .sched b]) s
      = ({ s with
            queue := []
            delivered := s.delivered ++ [a, b]
            flushPasses := s.flushPasses + 1 }, false)
    ∧ (∀ t : NotifyState,
        (flush t).queue = []
        ∧ (flush t).delivered = t.delivered ++ t.queue
        ∧ (flush t).flushPasses = t.flushPasses + (if t.queue.length = 0 then 0 else 1)) := by
  constructor
  · have h := batch_outer [.sched a, .sched b] s h0 hq
    simpa [schedsOfList, schedsOf] using h
  · intro t
    unfold flush
    by_cases hl : t.queue.length = 0
    · have : t.queue = [] := List.length_eq_zero.mp hl
      simp [this]
    · simp [hl]

/-- Claim C7 witness: from the quiescent state, batching two schedules
delivers both callbacks in order in one pass. -/
theorem claim7_witness :
    runAct (.batchA [.sched 4, .sched 5]) quiescent
      = ({ queue := [], transactions := 0, delivered := [4, 5], flushPasses := 1 }, false) := by
  have h := (claim7_batch_order quiescent 4 5 rfl rfl).1
  rw [h]
  decide

end Notify
